import Mathlib

/-!
Verification of the fern-jest-client core: the Jest-to-Fern result mapper
(`src/utils/mapper.ts`) and the HTTP transport client (`src/api/client.ts`).

The mapper's pure functions are embedded directly as Lean functions over the
data shapes declared in `src/types/index.ts`.  JavaScript strings are modelled
as Lean `String`s, JS numbers used as counters/ids as `Nat`, optional fields as
`Option`, and the regex scans of `extractTagsFromString` as explicit
fuel-indexed left-to-right scanners that reproduce the leftmost,
non-overlapping matching of the three patterns `\[([^\]]+)\]`, `@([a-zA-Z0-9_-]+)`
and `#([a-zA-Z0-9_-]+)`.
-/

/-- The JS whitespace characters relevant to `String.prototype.trim`
(ASCII whitespace plus NBSP/BOM/LS/PS). -/
def isJsSpace (c : Char) : Bool :=
  c = ' ' || c = '\t' || c = '\n' || c = '\r' || c = '\x0b' || c = '\x0c' ||
  c = ' ' || c = '﻿' || c = ' ' || c = ' '

/-- A character matched by the regex class `[a-zA-Z0-9_-]`. -/
def isWordChar (c : Char) : Bool :=
  ('a' ≤ c && c ≤ 'z') || ('A' ≤ c && c ≤ 'Z') || ('0' ≤ c && c ≤ '9') ||
  c = '_' || c = '-'

/-- JS `String.prototype.trim` on a character list: strip leading and trailing
whitespace. -/
def trimChars (l : List Char) : List Char :=
  ((l.dropWhile isJsSpace).reverse.dropWhile isJsSpace).reverse

/-- JS `String.prototype.split(',')`: split at every comma, keeping empty
pieces. -/
def splitComma : List Char → List (List Char)
  | [] => [[]]
  | c :: rest =>
    let ps := splitComma rest
    if c = ',' then [] :: ps
    else
      match ps with
      | [] => [[c]]
      | p :: pr => (c :: p) :: pr

/-- Leftmost non-overlapping matches of `\[([^\]]+)\]`: at a `[`, the capture
is the maximal run of non-`]` characters; the match succeeds when that run is
nonempty and followed by `]`, and scanning resumes after the `]`; otherwise
scanning resumes at the next character.  The fuel argument only bounds the
recursion; `scanBrackets` supplies enough for the whole input. -/
def scanBracketsAux : Nat → List Char → List (List Char)
  | 0, _ => []
  | _, [] => []
  | fuel + 1, c :: rest =>
    if c = '[' then
      let run := rest.takeWhile (fun d => !(d = ']'))
      if run.isEmpty then scanBracketsAux fuel rest
      else
        match rest.drop run.length with
        | ']' :: after => run :: scanBracketsAux fuel after
        | _ => scanBracketsAux fuel rest
    else scanBracketsAux fuel rest

def scanBrackets (l : List Char) : List (List Char) :=
  scanBracketsAux l.length l

/-- Leftmost non-overlapping matches of `@([a-zA-Z0-9_-]+)` (or `#...` for
`sig = '#'`): at the sigil, capture the maximal nonempty run of word
characters and resume after it. -/
def scanSigilAux (sig : Char) : Nat → List Char → List String
  | 0, _ => []
  | _, [] => []
  | fuel + 1, c :: rest =>
    if c = sig then
      let run := rest.takeWhile isWordChar
      if run.isEmpty then scanSigilAux sig fuel rest
      else run.asString :: scanSigilAux sig fuel (rest.drop run.length)
    else scanSigilAux sig fuel rest

def scanSigil (sig : Char) (l : List Char) : List String :=
  scanSigilAux sig l.length l

/-- Names produced by pattern 1 of `extractTagsFromString`: every bracket
group's interior is split on `,`, each piece trimmed, empty pieces dropped
(the JS code pushes a name only when it is truthy). -/
def bracketNames (s : String) : List String :=
  (scanBrackets s.toList).flatMap
    (fun interior =>
      ((splitComma interior).map (fun p => (trimChars p).asString)).filter
        (fun n => !(n = "")))

/-- Names produced by pattern 2 (`@tag`). -/
def atNames (s : String) : List String := scanSigil '@' s.toList

/-- Names produced by pattern 3 (`#tag`). -/
def hashNames (s : String) : List String := scanSigil '#' s.toList

/-- `Tag` from `src/types/index.ts`. -/
structure Tag where
  id : Nat
  name : String
deriving DecidableEq, Repr

/-- `extractTagsFromString` (`src/utils/mapper.ts`): the three patterns are run
independently over the whole string and their tags pushed in pattern order,
each with placeholder id 0 ("ID will be assigned later"). -/
def extractTagsFromString (str : String) : List Tag :=
  (bracketNames str).map (fun n => { id := 0, name := n }) ++
  (atNames str).map (fun n => { id := 0, name := n }) ++
  (hashNames str).map (fun n => { id := 0, name := n })

/-- `failureDetails` entry of `JestTestResult` (`src/types/index.ts`). -/
structure FailureDetail where
  message : String
  stack : Option String
deriving DecidableEq, Repr

/-- `JestTestResult` (`src/types/index.ts`), restricted to the fields the
mapper reads.  `status` is declared in TypeScript as a union of six string
literals but flows into functions taking arbitrary strings, so it is a
`String` here; `duration` is optional. -/
structure JestTestResult where
  ancestorTitles : List String
  duration : Option Nat
  failureDetails : List FailureDetail
  failureMessages : List String
  fullName : String
  status : String
  title : String
deriving DecidableEq, Repr

/-- `SpecRun` (`src/types/index.ts`). -/
structure SpecRun where
  id : Nat
  suite_id : Nat
  spec_description : String
  status : String
  message : String
  tags : List Tag
  start_time : String
  end_time : String
deriving DecidableEq, Repr

/-- `SuiteRun` (`src/types/index.ts`). -/
structure SuiteRun where
  id : Nat
  test_run_id : Nat
  suite_name : String
  start_time : String
  end_time : String
  spec_runs : List SpecRun
deriving DecidableEq, Repr

/-- `TestRun` (`src/types/index.ts`). -/
structure TestRun where
  id : Nat
  test_project_name : String
  test_project_id : String
  test_seed : Nat
  start_time : String
  end_time : String
  git_branch : String
  git_sha : String
  build_trigger_actor : String
  build_url : String
  client_type : String
  suite_runs : List SuiteRun
deriving DecidableEq, Repr

/-- `buildSpecDescription`: join ancestor titles with `" > "` and append the
title; the JS truthiness test on the joined string means an empty join (no
ancestors, or all-empty ancestors joining to `""`) yields just the title. -/
def buildSpecDescription (test : JestTestResult) : String :=
  let ancestors := String.intercalate " > " test.ancestorTitles
  if ancestors = "" then test.title else ancestors ++ " > " ++ test.title

/-- `mapJestStatusToFernStatus`: the `switch` over the native status string. -/
def mapJestStatusToFernStatus (jestStatus : String) : String :=
  if jestStatus = "passed" then "passed"
  else if jestStatus = "failed" then "failed"
  else if jestStatus = "skipped" ∨ jestStatus = "pending" ∨ jestStatus = "disabled" then
    "skipped"
  else if jestStatus = "todo" then "pending"
  else "unknown"

/-- `extractFailureMessage`: empty for `passed`; otherwise the newline-joined
`failureMessages` when nonempty, else the newline-joined `failureDetails`
messages when nonempty, else `"Test failed"` exactly when the status is
`failed`. -/
def extractFailureMessage (test : JestTestResult) : String :=
  if test.status = "passed" then ""
  else if test.failureMessages.length > 0 then
    String.intercalate "\n" test.failureMessages
  else if test.failureDetails.length > 0 then
    String.intercalate "\n" (test.failureDetails.map FailureDetail.message)
  else if test.status = "failed" then "Test failed" else ""

/-- The candidate tags collected by `extractTagsFromTest` before the default
substitution and the dedup pass: tags of the title, then tags of each ancestor
title in order. -/
def collectedTags (test : JestTestResult) : List Tag :=
  extractTagsFromString test.title ++
  (test.ancestorTitles.map extractTagsFromString).flatten

/-- The dedup-and-assign loop of `extractTagsFromTest`: walk the collected
tags with the running `tagId` counter and the set of names already seen; a
first-occurrence name is kept with the current counter value (which is then
incremented), later duplicates are dropped. -/
def dedupAssign : List Tag → Nat → List String → List Tag
  | [], _, _ => []
  | t :: rest, tagId, seen =>
    if seen.contains t.name then dedupAssign rest tagId seen
    else { id := tagId, name := t.name } :: dedupAssign rest (tagId + 1) (t.name :: seen)

/-- `extractTagsFromTest`: collect candidate tags from the title and ancestor
titles; if none were found push a default tag, incrementing `tagId` in the
process (so the dedup pass then re-labels the default tag with id 2); finally
deduplicate by name and assign ids from the running counter. -/
def extractTagsFromTest (test : JestTestResult) : List Tag :=
  let tags := collectedTags test
  let withDefault := if tags.isEmpty then (tags ++ [{ id := 1, name := "default" }], 2)
    else (tags, 1)
  dedupAssign withDefault.1 withDefault.2 []

/-- Left-pad the decimal rendering of `n` with zeros to `width` characters. -/
def padZeros (width n : Nat) : String :=
  let s := toString n
  String.mk (List.replicate (width - s.length) '0') ++ s

/-- `new Date(ms).toISOString()` for a non-negative epoch-millisecond value:
Gregorian civil date via the standard days-from-civil inversion, rendered as
`YYYY-MM-DDTHH:mm:ss.sssZ`. -/
def isoString (ms : Nat) : String :=
  let msPart := ms % 1000
  let totalSecs := ms / 1000
  let secsOfDay := totalSecs % 86400
  let days := totalSecs / 86400
  let z := days + 719468
  let era := z / 146097
  let doe := z % 146097
  let yoe := (doe - doe / 1460 + doe / 36524 - doe / 146097) / 365
  let doy := doe - (365 * yoe + yoe / 4 - yoe / 100)
  let mp := (5 * doy + 2) / 153
  let d := doy - (153 * mp + 2) / 5 + 1
  let m := if mp < 10 then mp + 3 else mp - 9
  let y := yoe + era * 400 + (if m ≤ 2 then 1 else 0)
  padZeros 4 y ++ "-" ++ padZeros 2 m ++ "-" ++ padZeros 2 d ++ "T" ++
  padZeros 2 (secsOfDay / 3600) ++ ":" ++ padZeros 2 (secsOfDay % 3600 / 60) ++ ":" ++
  padZeros 2 (secsOfDay % 60) ++ "." ++ padZeros 3 msPart ++ "Z"

/-- `mapJestTestToSpecRun`: assemble the `SpecRun` for one test; the duration
defaults to 0 when absent, and the spec's start/end times are the suite start
instant and that instant plus the duration. -/
def mapJestTestToSpecRun (test : JestTestResult) (suiteStartTime : Nat)
    (suiteId : Nat) (specId : Nat) : SpecRun :=
  let testDuration := test.duration.getD 0
  { id := specId
    suite_id := suiteId
    spec_description := buildSpecDescription test
    status := mapJestStatusToFernStatus test.status
    message := extractFailureMessage test
    tags := extractTagsFromTest test
    start_time := isoString suiteStartTime
    end_time := isoString (suiteStartTime + testDuration) }

/-- `totalSpecs` inside `generateTestSummary`: the reduce summing the
`spec_runs` lengths over all suites. -/
def totalSpecs (testRun : TestRun) : Nat :=
  testRun.suite_runs.foldl (fun sum suite => sum + suite.spec_runs.length) 0

/-- `passedSpecs` inside `generateTestSummary`. -/
def passedSpecs (testRun : TestRun) : Nat :=
  testRun.suite_runs.foldl
    (fun sum suite => sum + (suite.spec_runs.filter (fun spec => spec.status == "passed")).length) 0

/-- `failedSpecs` inside `generateTestSummary`. -/
def failedSpecs (testRun : TestRun) : Nat :=
  testRun.suite_runs.foldl
    (fun sum suite => sum + (suite.spec_runs.filter (fun spec => spec.status == "failed")).length) 0

/-- `skippedSpecs` inside `generateTestSummary`. -/
def skippedSpecs (testRun : TestRun) : Nat :=
  testRun.suite_runs.foldl
    (fun sum suite => sum + (suite.spec_runs.filter (fun spec => spec.status == "skipped")).length) 0

/-- `generateTestSummary`: the fixed-format multi-line log summary. -/
def generateTestSummary (testRun : TestRun) : String :=
  String.intercalate "\n"
    [ "Fern Test Run Summary:",
      "  Project: " ++ testRun.test_project_id,
      "  Branch: " ++ testRun.git_branch,
      "  Commit: " ++ testRun.git_sha.take 8,
      "  Suites: " ++ toString testRun.suite_runs.length,
      "  Tests: " ++ toString (totalSpecs testRun) ++ " total, " ++
        toString (passedSpecs testRun) ++ " passed, " ++
        toString (failedSpecs testRun) ++ " failed, " ++
        toString (skippedSpecs testRun) ++ " skipped" ]

/-- All `SpecRun`s of a `TestRun`, in order. -/
def allSpecRuns (testRun : TestRun) : List SpecRun :=
  (testRun.suite_runs.map SuiteRun.spec_runs).flatten

/-!
Transport client (`FernApiClient` in `src/api/client.ts`).

One HTTP attempt is an `AttemptOutcome`: either a response with some status
code, or a network-level failure carrying an error code and no response.
Axios (with its default `validateStatus`) fulfills the request promise for a
2xx status and rejects otherwise, which `attemptResult` captures.  The retry
interceptor installed by `setupRetryInterceptor` is the rejection handler
`runRequest`: it threads the `__retryCount` counter (absent on the first
failure — and in JS `undefined >= retries` is false, which `retryCountExceeded`
reproduces) and re-issues the request for retryable errors.  A run is driven
by the list of outcomes the transport would produce for successive attempts;
the second component of the result counts how many attempts were issued.
-/

/-- The error object axios passes to the interceptor: the response status if a
response was received, and the error code for network-level failures. -/
structure AxiosError where
  responseStatus : Option Nat
  code : Option String
deriving DecidableEq, Repr

/-- One attempt of the underlying transport. -/
inductive AttemptOutcome where
  | response (status : Nat)
  | network (code : String)
deriving DecidableEq, Repr

/-- Axios default `validateStatus`: fulfil exactly the 2xx statuses. -/
def validateStatus (s : Nat) : Bool :=
  decide (200 ≤ s) && decide (s < 300)

/-- How axios settles one attempt. -/
def attemptResult : AttemptOutcome → Except AxiosError Nat
  | .response s =>
    if validateStatus s then .ok s else .error { responseStatus := some s, code := none }
  | .network c => .error { responseStatus := none, code := some c }

/-- The interceptor's retry condition: no response at all, a 5xx status, or
one of the four listed network error codes. -/
def isRetryable (e : AxiosError) : Bool :=
  e.responseStatus.isNone ||
  (match e.responseStatus with
   | some s => decide (500 ≤ s) && decide (s < 600)
   | none => false) ||
  e.code == some "ECONNABORTED" || e.code == some "ENOTFOUND" ||
  e.code == some "ECONNRESET" || e.code == some "ECONNREFUSED"

/-- The guard `config.__retryCount >= retries`: `__retryCount` is absent on
the first failure, and the JS comparison of `undefined` is false. -/
def retryCountExceeded : Option Nat → Nat → Bool
  | none, _ => false
  | some c, retries => decide (c ≥ retries)

/-- One request as driven through the response interceptor: settle the current
attempt; on rejection, give up when the counter already reached `retries`,
otherwise bump the counter and re-issue the request when the error is
retryable.  Returns the settled result and the number of attempts issued. -/
def runRequest : List AttemptOutcome → Option Nat → Nat → Except AxiosError Nat × Nat
  | [], _, _ => (.error { responseStatus := none, code := none }, 0)
  | o :: rest, count, retries =>
    match attemptResult o with
    | .ok s => (.ok s, 1)
    | .error e =>
      if retryCountExceeded count retries then (.error e, 1)
      else if isRetryable e then
        let next := runRequest rest (some (count.getD 0 + 1)) retries
        (next.1, next.2 + 1)
      else (.error e, 1)

/-- A fresh request (no `__retryCount` yet) through the interceptor. -/
def requestWithRetries (outcomes : List AttemptOutcome) (retries : Nat) :
    Except AxiosError Nat × Nat :=
  runRequest outcomes none retries

/-- `report`: POST the payload; a fulfilled response resolves (logging only),
a rejection is re-thrown to the caller. -/
def report (outcomes : List AttemptOutcome) (retries : Nat) :
    Except AxiosError Unit × Nat :=
  let r := requestWithRetries outcomes retries
  (r.1.map (fun _ => ()), r.2)

/-- `ping`: GET `/api/v1/health`; on a fulfilled response return whether the
status is 2xx, and convert any thrown error into `false`. -/
def ping (outcomes : List AttemptOutcome) (retries : Nat) : Bool × Nat :=
  let r := requestWithRetries outcomes retries
  (match r.1 with
   | .ok s => decide (200 ≤ s) && decide (s < 300)
   | .error _ => false, r.2)

/-!
Helper lemmas.
-/

/-- Reference form of the spec's dedup rule, relative to a set of names
already seen: keep each name the first time it appears, drop later
occurrences. -/
def keepFirstNotSeen : List String → List String → List String
  | [], _ => []
  | n :: rest, seen =>
    if seen.contains n then keepFirstNotSeen rest seen
    else n :: keepFirstNotSeen rest (n :: seen)

/-- First-occurrence-wins deduplication of a name list, as the spec words it:
"deduplicating by name (first occurrence wins, later duplicates dropped)". -/
def specDedupKeepFirst (names : List String) : List String :=
  keepFirstNotSeen names []

theorem dedupAssign_names (l : List Tag) (tagId : Nat) (seen : List String) :
    (dedupAssign l tagId seen).map Tag.name = keepFirstNotSeen (l.map Tag.name) seen := by
  induction l generalizing tagId seen with
  | nil => rfl
  | cons t rest ih =>
    simp only [dedupAssign, List.map_cons, keepFirstNotSeen]
    by_cases h : t.name ∈ seen
    · simp [h, ih]
    · simp [h, ih]

theorem dedupAssign_ids (l : List Tag) (tagId : Nat) (seen : List String) :
    (dedupAssign l tagId seen).map Tag.id
      = List.range' tagId (dedupAssign l tagId seen).length := by
  induction l generalizing tagId seen with
  | nil => rfl
  | cons t rest ih =>
    simp only [dedupAssign]
    by_cases h : t.name ∈ seen
    · simp [h, ih]
    · simp [h, ih, List.range']

theorem dedupAssign_nodup (l : List Tag) (tagId : Nat) (seen : List String) :
    ((dedupAssign l tagId seen).map Tag.name).Nodup ∧
    ∀ n ∈ (dedupAssign l tagId seen).map Tag.name, n ∉ seen := by
  induction l generalizing tagId seen with
  | nil => simp [dedupAssign]
  | cons t rest ih =>
    by_cases h : t.name ∈ seen
    · simpa [dedupAssign, h] using ih tagId seen
    · have ihr := ih (tagId + 1) (t.name :: seen)
      refine ⟨?_, ?_⟩
      · simp only [dedupAssign, List.map_cons, List.nodup_cons]
        rw [if_neg (by simpa using h)]
        simp only [List.map_cons, List.nodup_cons]
        refine ⟨fun hmem => ?_, ihr.1⟩
        exact (ihr.2 t.name hmem) (List.mem_cons_self _ _)
      · intro n hn
        simp only [dedupAssign] at hn
        rw [if_neg (by simpa using h)] at hn
        simp only [List.map_cons, List.mem_cons] at hn
        rcases hn with rfl | hn
        · exact h
        · exact fun hs => (ihr.2 n hn) (List.mem_cons_of_mem _ hs)

theorem foldl_add_count (f : SuiteRun → Nat) (l : List SuiteRun) (a : Nat) :
    l.foldl (fun sum suite => sum + f suite) a = a + (l.map f).sum := by
  induction l generalizing a with
  | nil => simp
  | cons s rest ih => simp [List.foldl_cons, ih]; omega

theorem filter_flatten_count (p : SpecRun → Bool) (l : List SuiteRun) :
    (((l.map SuiteRun.spec_runs).flatten.filter p)).length
      = (l.map (fun suite => (suite.spec_runs.filter p).length)).sum := by
  induction l with
  | nil => rfl
  | cons s rest ih => simp [List.filter_append, ih, Function.comp_def]

/-- Specs whose status falls into none of the three counted buckets of the
summary. -/
def notCountedStatus (s : SpecRun) : Bool :=
  !(s.status == "passed" || s.status == "failed" || s.status == "skipped")

theorem length_filter_three_way (l : List SpecRun) :
    l.length = (l.filter (fun s => s.status == "passed")).length
             + (l.filter (fun s => s.status == "failed")).length
             + (l.filter (fun s => s.status == "skipped")).length
             + (l.filter notCountedStatus).length := by
  induction l with
  | nil => rfl
  | cons a rest ih =>
    by_cases h1 : a.status = "passed"
    · have e4 : notCountedStatus a = false := by simp [notCountedStatus, h1]
      rw [List.filter_cons, List.filter_cons, List.filter_cons, List.filter_cons]
      simp [h1, e4]
      omega
    · by_cases h2 : a.status = "failed"
      · have e4 : notCountedStatus a = false := by simp [notCountedStatus, h2]
        rw [List.filter_cons, List.filter_cons, List.filter_cons, List.filter_cons]
        simp [h1, h2, e4]
        omega
      · by_cases h3 : a.status = "skipped"
        · have e4 : notCountedStatus a = false := by simp [notCountedStatus, h3]
          rw [List.filter_cons, List.filter_cons, List.filter_cons, List.filter_cons]
          simp [h1, h2, h3, e4]
          omega
        · have e4 : notCountedStatus a = true := by
            simp [notCountedStatus, h1, h2, h3]
          rw [List.filter_cons, List.filter_cons, List.filter_cons, List.filter_cons]
          simp [h1, h2, h3, e4]
          omega

theorem runRequest_ok_2xx (outcomes : List AttemptOutcome) (count : Option Nat)
    (retries s : Nat) (h : (runRequest outcomes count retries).1 = Except.ok s) :
    200 ≤ s ∧ s < 300 := by
  induction outcomes generalizing count with
  | nil => simp [runRequest] at h
  | cons o rest ih =>
    cases o with
    | response st =>
      by_cases hv : validateStatus st = true
      · simp only [runRequest, attemptResult, hv, if_true] at h
        replace h : st = s := by simpa using h
        subst h
        simpa [validateStatus] using hv
      · simp only [runRequest, attemptResult, hv, Bool.false_eq_true, if_false] at h
        by_cases hexc : retryCountExceeded count retries = true
        · rw [if_pos hexc] at h
          simp at h
        · rw [if_neg hexc] at h
          by_cases hret : isRetryable { responseStatus := some st, code := none } = true
          · rw [if_pos hret] at h
            exact ih (some (count.getD 0 + 1)) h
          · rw [if_neg hret] at h
            simp at h
    | network c =>
      simp only [runRequest, attemptResult] at h
      by_cases hexc : retryCountExceeded count retries = true
      · rw [if_pos hexc] at h
        simp at h
      · rw [if_neg hexc] at h
        rw [if_pos (by simp [isRetryable])] at h
        exact ih (some (count.getD 0 + 1)) h

theorem length_flatten_spec_runs (l : List SuiteRun) :
    (l.map SuiteRun.spec_runs).flatten.length
      = (l.map (fun suite => suite.spec_runs.length)).sum := by
  induction l with
  | nil => rfl
  | cons s rest ih => simp [ih]

/-!
Concrete fixtures used by the claim theorems.
-/

/-- A test whose title and ancestor titles contain no bracket, at or hash
markers (the mock of the repository's own mapper test). -/
def noMarkerTest : JestTestResult :=
  { ancestorTitles := ["Math operations", "Addition"], duration := some 50,
    failureDetails := [], failureMessages := [],
    fullName := "Math operations Addition should add two numbers",
    status := "passed", title := "should add two numbers" }

/-- A skipped test carrying failure messages. -/
def skippedMsgsTest : JestTestResult :=
  { ancestorTitles := [], duration := none, failureDetails := [],
    failureMessages := ["E1"], fullName := "t", status := "skipped", title := "t" }

/-- A failed test with two failure messages. -/
def failedMsgsTest : JestTestResult :=
  { ancestorTitles := [], duration := none, failureDetails := [],
    failureMessages := ["E1", "E2"], fullName := "t", status := "failed", title := "t" }

/-- A test whose title and ancestor title both contain `@fast`. -/
def dupTagTest : JestTestResult :=
  { ancestorTitles := ["suite @fast"], duration := none, failureDetails := [],
    failureMessages := [], fullName := "ok @fast", status := "passed",
    title := "ok @fast" }

/-- A test whose only marker is a bracket group whose interior is itself an
at-mention. -/
def bracketAtTest : JestTestResult :=
  { ancestorTitles := [], duration := none, failureDetails := [],
    failureMessages := [], fullName := "[@fast]", status := "passed",
    title := "[@fast]" }

/-- A test run with one passed and one pending spec. -/
def pendingStatusRun : TestRun :=
  { id := 7, test_project_name := "proj", test_project_id := "proj",
    test_seed := 7, start_time := "", end_time := "", git_branch := "main",
    git_sha := "abc123def456", build_trigger_actor := "dev", build_url := "",
    client_type := "fern-jest-client",
    suite_runs :=
      [ { id := 1, test_run_id := 7, suite_name := "s", start_time := "",
          end_time := "",
          spec_runs :=
            [ { id := 1, suite_id := 1, spec_description := "a",
                status := "passed", message := "", tags := [],
                start_time := "", end_time := "" },
              { id := 2, suite_id := 1, spec_description := "b",
                status := "pending", message := "", tags := [],
                start_time := "", end_time := "" } ] } ] }

/-!
Claim theorems.
-/

/-- C1: evaluation of the code at a marker-free test.  The claim (and the
spec) says the substituted default tag has id 1, but `extractTagsFromTest`
pushes the default tag with `tagId++`, so the dedup pass that follows assigns
it the already-incremented counter value 2: the mapped SpecRun's tag list is
`[{id: 2, name: "default"}]`. -/
theorem C1_default_tag_evaluation :
    collectedTags noMarkerTest = [] ∧
    (mapJestTestToSpecRun noMarkerTest 0 1 1).tags = [{ id := 2, name := "default" }] :=
  ⟨rfl, rfl⟩

/-- C2 (amended): the mapped SpecRun's message is empty when the raw status is
`passed`; for every other raw status it is the newline-joined
`failureMessages` when nonempty, else the newline-joined `failureDetails`
messages when nonempty, else `"Test failed"` when the status is `failed` and
the empty string otherwise.  (The claim as stated also promised the empty
string for skipped tests with failure material; see the counterexample.) -/
theorem C2_message_composition (test : JestTestResult) (st sid spid : Nat) :
    (test.status = "passed" → (mapJestTestToSpecRun test st sid spid).message = "") ∧
    (test.status ≠ "passed" → test.failureMessages ≠ [] →
      (mapJestTestToSpecRun test st sid spid).message
        = String.intercalate "\n" test.failureMessages) ∧
    (test.status ≠ "passed" → test.failureMessages = [] → test.failureDetails ≠ [] →
      (mapJestTestToSpecRun test st sid spid).message
        = String.intercalate "\n" (test.failureDetails.map FailureDetail.message)) ∧
    (test.status = "failed" → test.failureMessages = [] → test.failureDetails = [] →
      (mapJestTestToSpecRun test st sid spid).message = "Test failed") ∧
    (test.status ≠ "passed" → test.status ≠ "failed" → test.failureMessages = [] →
      test.failureDetails = [] →
      (mapJestTestToSpecRun test st sid spid).message = "") := by
  have hm : (mapJestTestToSpecRun test st sid spid).message = extractFailureMessage test := rfl
  refine ⟨?_, ?_, ?_, ?_, ?_⟩ <;> rw [hm]
  · intro h
    simp [extractFailureMessage, h]
  · intro h1 h2
    have hl : 0 < test.failureMessages.length := List.length_pos.mpr h2
    simp [extractFailureMessage, h1, hl]
  · intro h1 h2 h3
    have hl : 0 < test.failureDetails.length := List.length_pos.mpr h3
    simp [extractFailureMessage, h1, h2, hl]
  · intro h1 h2 h3
    have hne : test.status ≠ "passed" := by rw [h1]; decide
    simp [extractFailureMessage, hne, h1, h2, h3]
  · intro h1 h2 h3 h4
    simp [extractFailureMessage, h1, h2, h3, h4]

/-- C2 witness: a failed test with messages `["E1", "E2"]` gets their
newline-join as its message. -/
theorem C2_message_composition_witness :
    failedMsgsTest.status ≠ "passed" ∧ failedMsgsTest.failureMessages ≠ [] ∧
    (mapJestTestToSpecRun failedMsgsTest 0 1 1).message
      = String.intercalate "\n" failedMsgsTest.failureMessages :=
  ⟨by decide, by decide,
    (C2_message_composition failedMsgsTest 0 1 1).2.1 (by decide) (by decide)⟩

/-- C2 counterexample: a test whose normalized status is `skipped` but whose
`failureMessages` are nonempty gets the joined messages, not the empty string
the claim requires for skipped tests. -/
theorem C2_skipped_message_counterexample :
    mapJestStatusToFernStatus skippedMsgsTest.status = "skipped" ∧
    (mapJestTestToSpecRun skippedMsgsTest 0 1 1).message = "E1" ∧
    (mapJestTestToSpecRun skippedMsgsTest 0 1 1).message ≠ "" :=
  ⟨rfl, rfl, by decide⟩

/-- C3: when the first attempt yields a response with a 4xx status, the
interceptor classifies the error as terminal: `report` surfaces it and the
transport issued exactly one request, whatever the configured retry count. -/
theorem C3_terminal_4xx (s : Nat) (rest : List AttemptOutcome) (retries : Nat)
    (h1 : 400 ≤ s) (h2 : s < 500) :
    report (AttemptOutcome.response s :: rest) retries
      = (Except.error { responseStatus := some s, code := none }, 1) := by
  have hv : validateStatus s = false := by
    simp [validateStatus]
    omega
  have hr : isRetryable { responseStatus := some s, code := none } = false := by
    simp [isRetryable]
    omega
  simp [report, requestWithRetries, runRequest, attemptResult, hv, hr,
    retryCountExceeded, Except.map]

/-- C3 witness: HTTP 404 on the first attempt. -/
theorem C3_terminal_4xx_witness :
    400 ≤ 404 ∧ 404 < 500 ∧
    report [AttemptOutcome.response 404] 3
      = (Except.error { responseStatus := some 404, code := none }, 1) :=
  ⟨by decide, by decide, C3_terminal_4xx 404 [] 3 (by decide) (by decide)⟩

/-- C4: two network-level failures followed by a 2xx response, with at least 3
configured retries: `report` succeeds and the transport was invoked exactly 3
times. -/
theorem C4_network_retry (c1 c2 : String) (s retries : Nat) (rest : List AttemptOutcome)
    (h1 : 3 ≤ retries) (h2 : 200 ≤ s) (h3 : s < 300) :
    report (AttemptOutcome.network c1 :: AttemptOutcome.network c2 ::
        AttemptOutcome.response s :: rest) retries
      = (Except.ok (), 3) := by
  have hv : validateStatus s = true := by
    simp [validateStatus]
    omega
  have hr0 : retryCountExceeded none retries = false := rfl
  have hr1 : retryCountExceeded (some 1) retries = false := by
    simp [retryCountExceeded]
    omega
  simp [report, requestWithRetries, runRequest, attemptResult, isRetryable,
    hv, hr0, hr1, Except.map]

/-- C4 witness: two connection failures then HTTP 201 with 3 retries. -/
theorem C4_network_retry_witness :
    3 ≤ 3 ∧ 200 ≤ 201 ∧ 201 < 300 ∧
    report [AttemptOutcome.network "ECONNREFUSED", AttemptOutcome.network "ECONNRESET",
        AttemptOutcome.response 201] 3
      = (Except.ok (), 3) :=
  ⟨by decide, by decide, by decide,
    C4_network_retry "ECONNREFUSED" "ECONNRESET" 201 3 [] (by decide) (by decide) (by decide)⟩

/-- C5: the mapped SpecRun's tag names are pairwise distinct; and whenever the
title/ancestor scan produced at least one candidate tag (in particular
whenever some name was produced more than once), the surviving names are the
first-occurrence-wins deduplication of the candidate names and the surviving
tags carry ids 1, 2, 3, ... in final order.  (A marker-free test takes the
default-tag path instead, whose id is settled under C1.) -/
theorem C5_dedup_first_wins (test : JestTestResult) (st sid spid : Nat) :
    ((mapJestTestToSpecRun test st sid spid).tags.map Tag.name).Nodup ∧
    (collectedTags test ≠ [] →
      (mapJestTestToSpecRun test st sid spid).tags.map Tag.name
          = specDedupKeepFirst ((collectedTags test).map Tag.name) ∧
      (mapJestTestToSpecRun test st sid spid).tags.map Tag.id
          = List.range' 1 (mapJestTestToSpecRun test st sid spid).tags.length) := by
  have ht : (mapJestTestToSpecRun test st sid spid).tags = extractTagsFromTest test := rfl
  rw [ht]
  by_cases h : (collectedTags test).isEmpty = true
  · have hnil : collectedTags test = [] := by simpa using h
    refine ⟨?_, fun hne => absurd hnil hne⟩
    simp [extractTagsFromTest, h, hnil, dedupAssign]
  · have heq : extractTagsFromTest test = dedupAssign (collectedTags test) 1 [] := by
      simp [extractTagsFromTest, h]
    rw [heq]
    exact ⟨(dedupAssign_nodup _ 1 []).1,
      fun _ => ⟨dedupAssign_names _ 1 [], dedupAssign_ids _ 1 []⟩⟩

/-- C5 witness: a test whose title and ancestor both contain `@fast` keeps a
single tag named `fast`, with id 1. -/
theorem C5_dedup_first_wins_witness :
    collectedTags dupTagTest ≠ [] ∧
    ((mapJestTestToSpecRun dupTagTest 0 1 1).tags.map Tag.name
        = specDedupKeepFirst ((collectedTags dupTagTest).map Tag.name) ∧
      (mapJestTestToSpecRun dupTagTest 0 1 1).tags.map Tag.id
        = List.range' 1 (mapJestTestToSpecRun dupTagTest 0 1 1).tags.length) :=
  ⟨by decide, (C5_dedup_first_wins dupTagTest 0 1 1).2 (by decide)⟩

/-- C6: the status normalizer is total with range
{passed, failed, skipped, pending, unknown}; `passed` and `failed` map to
themselves, `skipped`, `pending` and `disabled` map to `skipped`, `todo` maps
to `pending`, and every other string maps to `unknown`. -/
theorem C6_status_normalizer_total :
    mapJestStatusToFernStatus "passed" = "passed" ∧
    mapJestStatusToFernStatus "failed" = "failed" ∧
    mapJestStatusToFernStatus "skipped" = "skipped" ∧
    mapJestStatusToFernStatus "pending" = "skipped" ∧
    mapJestStatusToFernStatus "disabled" = "skipped" ∧
    mapJestStatusToFernStatus "todo" = "pending" ∧
    (∀ s : String,
      mapJestStatusToFernStatus s = "passed" ∨ mapJestStatusToFernStatus s = "failed" ∨
      mapJestStatusToFernStatus s = "skipped" ∨ mapJestStatusToFernStatus s = "pending" ∨
      mapJestStatusToFernStatus s = "unknown") ∧
    (∀ s : String, s ≠ "passed" → s ≠ "failed" → s ≠ "skipped" → s ≠ "pending" →
      s ≠ "disabled" → s ≠ "todo" → mapJestStatusToFernStatus s = "unknown") := by
  refine ⟨by decide, by decide, by decide, by decide, by decide, by decide, ?_, ?_⟩
  · intro s
    unfold mapJestStatusToFernStatus
    split_ifs <;> simp
  · intro s h1 h2 h3 h4 h5 h6
    simp [mapJestStatusToFernStatus, h1, h2, h3, h4, h5, h6]

/-- C6 witness: an unrecognized status string normalizes to `unknown`. -/
theorem C6_status_normalizer_total_witness :
    ("mystery" : String) ≠ "passed" ∧ mapJestStatusToFernStatus "mystery" = "unknown" :=
  ⟨by decide,
    C6_status_normalizer_total.2.2.2.2.2.2.2 "mystery" (by decide) (by decide)
      (by decide) (by decide) (by decide) (by decide)⟩

/-- C7: on `"should work [unit] @fast #integration"` the extractor returns
exactly the names `unit`, `fast`, `integration` in that order; and on every
string its output is the bracket-pattern names, then the at-pattern names,
then the hash-pattern names, each group in left-to-right match order. -/
theorem C7_extractor_pattern_order :
    (extractTagsFromString "should work [unit] @fast #integration").map Tag.name
        = ["unit", "fast", "integration"] ∧
    ∀ s : String, (extractTagsFromString s).map Tag.name
        = bracketNames s ++ atNames s ++ hashNames s := by
  refine ⟨by decide, ?_⟩
  intro s
  simp [extractTagsFromString, Function.comp_def]

/-- C10: the three patterns are applied independently, so the title `"[@fast]"`
yields both the bracket-group name `@fast` (interior trimmed, sigil kept) and
the at-mention name `fast`; both names differ, so both tags survive
deduplication, with ids 1 and 2. -/
theorem C10_bracket_at_overlap :
    (extractTagsFromString "[@fast]").map Tag.name = ["@fast", "fast"] ∧
    (mapJestTestToSpecRun bracketAtTest 0 1 1).tags
      = [{ id := 1, name := "@fast" }, { id := 2, name := "fast" }] :=
  ⟨rfl, rfl⟩

/-- C8: `ping` returns true exactly when the health-check request settles with
a fulfilled 2xx response (through the same retry interceptor), and converts
every other settled outcome into `false`; being a total function into `Bool`,
it raises nothing. -/
theorem C8_ping_iff_2xx (outcomes : List AttemptOutcome) (retries : Nat) :
    (ping outcomes retries).1 = true ↔
      ∃ s, (requestWithRetries outcomes retries).1 = Except.ok s ∧ 200 ≤ s ∧ s < 300 := by
  unfold ping
  cases h : (requestWithRetries outcomes retries).1 with
  | ok s =>
    have hb := runRequest_ok_2xx outcomes none retries s h
    simp [h, hb.1, hb.2]
  | error e => simp [h]

/-- C9: in the logged summary, the total is the number of all SpecRuns while
the three buckets count only the statuses `passed`, `failed` and `skipped`
exactly; specs with any other status (e.g. `pending` or `unknown`) are counted
in the total and in no bucket, and on a run containing a pending spec the
three bucket counts sum to strictly less than the total. -/
theorem C9_summary_bucket_counts :
    (∀ tr : TestRun,
      totalSpecs tr = (allSpecRuns tr).length ∧
      passedSpecs tr = ((allSpecRuns tr).filter (fun s => s.status == "passed")).length ∧
      failedSpecs tr = ((allSpecRuns tr).filter (fun s => s.status == "failed")).length ∧
      skippedSpecs tr = ((allSpecRuns tr).filter (fun s => s.status == "skipped")).length ∧
      totalSpecs tr = passedSpecs tr + failedSpecs tr + skippedSpecs tr
        + ((allSpecRuns tr).filter notCountedStatus).length) ∧
    passedSpecs pendingStatusRun + failedSpecs pendingStatusRun +
        skippedSpecs pendingStatusRun < totalSpecs pendingStatusRun := by
  constructor
  · intro tr
    have htot : totalSpecs tr = (allSpecRuns tr).length := by
      simp [totalSpecs, foldl_add_count, allSpecRuns, length_flatten_spec_runs, Function.comp_def]
    have hp : passedSpecs tr
        = ((allSpecRuns tr).filter (fun s => s.status == "passed")).length := by
      simp [passedSpecs, foldl_add_count, allSpecRuns, filter_flatten_count, Function.comp_def]
    have hf : failedSpecs tr
        = ((allSpecRuns tr).filter (fun s => s.status == "failed")).length := by
      simp [failedSpecs, foldl_add_count, allSpecRuns, filter_flatten_count, Function.comp_def]
    have hs : skippedSpecs tr
        = ((allSpecRuns tr).filter (fun s => s.status == "skipped")).length := by
      simp [skippedSpecs, foldl_add_count, allSpecRuns, filter_flatten_count, Function.comp_def]
    refine ⟨htot, hp, hf, hs, ?_⟩
    rw [htot, hp, hf, hs]
    exact length_filter_three_way (allSpecRuns tr)
  · decide
